import Mathlib

/-!
Verification development for the landscape-client charm's configuration
translation and merge engine (`src/charm.py`).

The Python code is shallowly embedded:
* Python `dict`s (insertion-ordered, unique keys) and `configparser` sections
  are association lists `List (String × _)`; assignment keeps the position of
  an existing key and appends a fresh one, matching CPython dict semantics.
* Scalar configuration values are modelled as strings; Python truthiness on
  them is `≠ ""`.
* The file system is a small explicit state (`FS`): which paths exist for
  `os.path.isfile`, whether the well-known certificate file can be opened for
  writing, and a log of performed writes.
* Fallible code returns `Except PyError _`, with one constructor per Python
  exception class that the charm's control flow distinguishes.
* `configparser` (the only library whose behaviour the charm's logic depends
  on) is modelled from its documented default behaviour (`strict=True`,
  `optionxform=str.lower`, comment prefixes `#`/`;`): full-line comments,
  `[section]` headers, `key = value` / `key : value` lines, duplicate
  section/option errors, missing-section-header errors and parsing errors.
  Continuation lines, `%`-interpolation and the special `DEFAULT` section
  merging are outside the modelled fragment; no theorem below depends on them
  and every concrete input used avoids them.
-/

/-- Python `dict[str, α]` / an INI section: insertion-ordered association
list. -/
abbrev PyDict := List (String × String)

/-- A parsed INI document: sections in order, each with its options. -/
abbrev ConfigData := List (String × PyDict)

/-- First value stored under key `k` (Python `d[k]` / `d.get(k)`). -/
def alLookup {α : Type} : List (String × α) → String → Option α
  | [], _ => none
  | p :: rest, k => if p.1 = k then some p.2 else alLookup rest k

/-- Whether key `k` is present (Python `k in d`). -/
def alHasKey {α : Type} : List (String × α) → String → Bool
  | [], _ => false
  | p :: rest, k => if p.1 = k then true else alHasKey rest k

/-- Python `d[k] = v`: overwrite in place if the key exists, else append. -/
def alSet {α : Type} (l : List (String × α)) (k : String) (v : α) :
    List (String × α) :=
  if alHasKey l k then l.map (fun p => if p.1 = k then (k, v) else p)
  else l ++ [(k, v)]

/-- Python `base.update(add)`: assign every pair of `add` in order. -/
def alUpdate {α : Type} (base add : List (String × α)) : List (String × α) :=
  List.foldl (fun acc kv => alSet acc kv.1 kv.2) base add

/-- Characters stripped by Python `str.strip()`. -/
def isPySpace (c : Char) : Bool :=
  c = ' ' || c = '\t' || c = '\n' || c = '\r' || c = '\x0b' || c = '\x0c'

/-- Python `str.strip()`. -/
def pyStrip (s : String) : String :=
  String.mk ((((s.data.dropWhile isPySpace).reverse).dropWhile isPySpace).reverse)

/-- Python `str.lower()` (ASCII fragment, as used for configparser keys). -/
def pyLower (s : String) : String := String.mk (s.data.map Char.toLower)

/-- The character map of Python `key.replace("-", "_")`. -/
def undChar (c : Char) : Char := if c = '-' then '_' else c

/-- Python `key.replace("-", "_")`. -/
def pyUnderscore (s : String) : String := String.mk (s.data.map undChar)

/-- Python `str.rstrip()`. -/
def pyRstrip (s : String) : String :=
  String.mk ((s.data.reverse.dropWhile isPySpace).reverse)

/-- Lowercase hexadecimal digit. -/
def hexDigit (n : Nat) : Char :=
  if n < 10 then Char.ofNat (48 + n) else Char.ofNat (87 + n)

/-- Two lowercase hexadecimal digits of a byte. -/
def hexByte (n : Nat) : String := String.mk [hexDigit (n / 16), hexDigit (n % 16)]

/-- Escapes of Python `repr` inside a string delimited by `quote`: backslash,
the delimiter, `\n`/`\r`/`\t`, and `\xNN` for the other ASCII control
characters; printable characters pass through (non-ASCII repr is outside the
modelled fragment). -/
def pyReprEsc (quote : Char) (c : Char) : String :=
  if c = '\\' then "\\\\"
  else if c = quote then "\\" ++ String.mk [quote]
  else if c = '\n' then "\\n"
  else if c = '\r' then "\\r"
  else if c = '\t' then "\\t"
  else if c.toNat < 32 || c.toNat == 127 then "\\x" ++ hexByte c.toNat
  else String.mk [c]

/-- Python `repr` of a string: double-quoted when the string contains a
single quote but no double quote, else single-quoted with the single quote
escaped. -/
def pyRepr (s : String) : String :=
  if s.data.contains (Char.ofNat 39) && !(s.data.contains (Char.ofNat 34)) then
    String.mk [Char.ofNat 34] ++ String.join (s.data.map (pyReprEsc (Char.ofNat 34)))
      ++ String.mk [Char.ofNat 34]
  else
    String.mk [Char.ofNat 39] ++ String.join (s.data.map (pyReprEsc (Char.ofNat 39)))
      ++ String.mk [Char.ofNat 39]

/-- Python `sub in s` substring containment. -/
def containsSubstr (s sub : String) : Bool := decide (sub.data <:+: s.data)

/-- `CHARM_ONLY_CONFIGS` from `charm.py`: keys never forwarded to the
client. -/
def CHARM_ONLY_CONFIGS : List String :=
  ["ppa", "disable-unattended-upgrades", "additional-client-configuration"]

/-- `CERT_FILE` from `charm.py`. -/
def CERT_FILE : String := "/etc/ssl/certs/landscape_server_ca.crt"

/-- `CLIENT_CONFIG_CMD` from `charm.py`. -/
def CLIENT_CONFIG_CMD : String := "/usr/bin/landscape-config"

/-- The Python exception classes the charm's control flow distinguishes. -/
inductive PyError where
  /-- `ClientCharmError(msg)` raised by the charm itself. -/
  | clientCharmError (msg : String)
  /-- `binascii.Error` from `base64.b64decode` (a `ValueError`). -/
  | binasciiError
  /-- `OSError` from opening a file for writing. -/
  | oserror
  /-- `KeyError(k)` from a missing mapping key. -/
  | keyError (k : String)
  /-- `configparser.MissingSectionHeaderError`. -/
  | missingSectionHeaderError
  /-- `configparser.DuplicateSectionError`. -/
  | duplicateSectionError
  /-- `configparser.DuplicateOptionError`. -/
  | duplicateOptionError
  /-- `configparser.ParsingError`. -/
  | parsingError
  /-- `ValueError` from `BasicInterpolation.before_set` on assignment. -/
  | valueError
  /-- `configparser.InterpolationSyntaxError` from value interpolation. -/
  | interpolationSyntaxError
  /-- `configparser.InterpolationMissingOptionError` from value
  interpolation. -/
  | interpolationMissingOptionError
  /-- `configparser.InterpolationDepthError` from value interpolation. -/
  | interpolationDepthError
  deriving DecidableEq

deriving instance DecidableEq for Except

/-- Whether a computation ended in a `ClientCharmError`. -/
def isClientCharmError {α : Type} : Except PyError α → Bool
  | .error (.clientCharmError _) => true
  | _ => false

/-- File-system state visible to the charm. -/
structure FS where
  /-- Paths for which `os.path.isfile` returns true. -/
  files : List String
  /-- Whether `open(CERT_FILE, "wb")` succeeds (else `OSError`). -/
  certWritable : Bool
  /-- Log of paths written, in order. -/
  writes : List String
  deriving DecidableEq

/-- `os.path.isfile`. -/
def FS.isfile (fs : FS) (path : String) : Bool := fs.files.contains path

/-- Characters of the standard base64 alphabet (padding aside). -/
def isB64Char (c : Char) : Bool := c.isAlphanum || c = '+' || c = '/'

/-- Whether `base64.b64decode(s)` (with `validate=False`) succeeds: characters
outside the alphabet are discarded, then the data length must fill 4-character
quanta given the available padding; padding after a complete quad (quad
position 0) is ignored.  Modelled from CPython's non-strict `binascii`
padding check for inputs whose padding, if any, is trailing. -/
def b64decodable (s : String) : Bool :=
  let cs := s.data.filter (fun c => isB64Char c || c = '=')
  let dataChars := cs.takeWhile (fun c => isB64Char c)
  let pads := cs.length - dataChars.length
  (dataChars.length % 4 == 0)
    || (dataChars.length % 4 == 2 && pads ≥ 2)
    || (dataChars.length % 4 == 3 && pads ≥ 1)

/-- `write_certificate` (`charm.py:62`): open `filename` for writing (an
`OSError` propagates), then write `base64.b64decode(certificate)` (a
`binascii.Error` propagates when the material is not decodable). -/
def write_certificate (fs : FS) (certificate : String) : Except PyError FS :=
  if fs.certWritable = false then .error .oserror
  else if b64decodable certificate = false then .error .binasciiError
  else .ok { fs with
    files := if fs.files.contains CERT_FILE then fs.files
             else CERT_FILE :: fs.files,
    writes := fs.writes ++ [CERT_FILE] }

/-- `parse_ssl_arg` (`charm.py:71`): return an existing file path unchanged;
otherwise write the decoded material to `CERT_FILE` and return that path,
turning only `OSError` into `ClientCharmError`. -/
def parse_ssl_arg (fs : FS) (value : String) : Except PyError (String × FS) :=
  if fs.isfile value then .ok (value, fs)
  else
    match write_certificate fs value with
    | .ok fs' => .ok (CERT_FILE, fs')
    | .error .oserror => .error (.clientCharmError "Certificate does not exist!")
    | .error e => .error e

/-- Outcome of `subprocess.Popen` + `communicate` in `process_helper`. -/
inductive ProcOutcome where
  /-- `Popen` itself raised (e.g. binary missing). -/
  | spawnFailure
  /-- The process ran to completion with this exit code and combined
  stdout/stderr text. -/
  | completed (returncode : Int) (output : String)
  deriving DecidableEq

/-- `process_helper` (`charm.py:100`): false on spawn failure, non-zero exit
code, or `"Failure"` occurring in the combined output; true otherwise.  The
`hide_errors` flag only affects logging. -/
def process_helper (outcome : ProcOutcome) (hide_errors : Bool) : Bool :=
  match outcome with
  | .spawnFailure => false
  | .completed rc output =>
    if rc ≠ 0 || containsSubstr output "Failure" then false else true

/-- Split a string at newline characters (Python line iteration; every
consumer strips the line, so separator variants do not matter). -/
def splitNl : List Char → List Char → List String
  | [], acc => [String.mk acc.reverse]
  | c :: rest, acc =>
    if c = '\n' then String.mk acc.reverse :: splitNl rest []
    else splitNl rest (c :: acc)

/-- Whether a stripped line is a full-line comment (`#` or `;`). -/
def commentLine (value : String) : Bool :=
  match value.data with
  | c :: _ => if c = '#' then true else if c = ';' then true else false
  | [] => false

/-- Match configparser's `SECTCRE` (`\[([^]]+)\]`) at the start of a stripped
line; text after the closing bracket is ignored. -/
def parseHeader (value : String) : Option String :=
  match value.data with
  | [] => none
  | c :: rest =>
    if c = '[' then
      let header := rest.takeWhile (fun ch => if ch = ']' then false else true)
      if header.length = 0 then none
      else
        match rest.drop header.length with
        | ch :: _ => if ch = ']' then some (String.mk header) else none
        | [] => none
    else none

/-- Index of the first `=` or `:` delimiter of an option line. -/
def findDelim : List Char → Option Nat
  | [] => none
  | c :: rest =>
    if c = '=' ∨ c = ':' then some 0 else (findDelim rest).map (· + 1)

/-- Split a stripped option line at its first delimiter into stripped key and
value (configparser's `_OPT_TMPL`). -/
def splitKV (value : String) : Option (String × String) :=
  match findDelim value.data with
  | none => none
  | some i =>
    some (pyStrip (String.mk (value.data.take i)),
          pyStrip (String.mk (value.data.drop (i + 1))))

/-- The `[^)]+` name of a `%(name)s` key reference (`_KEYCRE`). -/
def keyRefName (rest : List Char) : List Char :=
  rest.takeWhile (fun c => if c = ')' then false else true)

/-- One pass of Python `value.replace("%%", "")`, performed first by
`BasicInterpolation.before_set`. -/
def stripDoublePct : List Char → List Char
  | '%' :: '%' :: rest => stripDoublePct rest
  | c :: rest => c :: stripDoublePct rest
  | [] => []

/-- `_KEYCRE.sub("", ...)`: remove `%(name)s` references scanning left to
right.  `gas` is a structural bound on the scan, always called with the
character count; every step consumes at least one character, so the `gas = 0`
arm with a non-empty list is unreachable. -/
def stripRefs : Nat → List Char → List Char
  | _, [] => []
  | 0, l => l
  | gas + 1, '%' :: '(' :: rest2 =>
    if (keyRefName rest2).length = 0 then '%' :: stripRefs gas ('(' :: rest2)
    else
      match rest2.drop (keyRefName rest2).length with
      | ')' :: 's' :: rest3 => stripRefs gas rest3
      | _ => '%' :: stripRefs gas ('(' :: rest2)
  | gas + 1, c :: rest => c :: stripRefs gas rest

/-- `BasicInterpolation.before_set` (applied by `ConfigParser.set` to every
assigned value): after removing escaped `%%` pairs and then `%(name)s`
references, any remaining `%` raises `ValueError`. -/
def beforeSetOk (value : String) : Bool :=
  !((stripRefs (stripDoublePct value.data).length
      (stripDoublePct value.data)).contains '%')

/-- The character scan of `BasicInterpolation._interpolate_some` at one
interpolation depth: `%%` yields `%`; `%(name)s` looks the lowercased name up
in `vars`, recursing via `deeper` when the raw value contains `%`; a `%`
followed by anything else (or a malformed reference) raises
`InterpolationSyntaxError`; a missing name raises
`InterpolationMissingOptionError`.  After a non-empty reference name the
dropped list necessarily starts with the closing bracket, so its head is
matched with a wildcard.  `gas` is a structural bound on the scan, always
called with the character count; every step consumes at least one character,
so the `gas = 0` arm with a non-empty list is unreachable. -/
def interpScan (vars : PyDict)
    (deeper : List Char → Except PyError (List Char)) :
    Nat → List Char → Except PyError (List Char)
  | _, [] => .ok []
  | 0, l => .ok l
  | gas + 1, c :: rest =>
    if c = '%' then
      match rest with
      | [] => .error .interpolationSyntaxError
      | c2 :: rest2 =>
        if c2 = '%' then
          match interpScan vars deeper gas rest2 with
          | .error e => .error e
          | .ok tail => .ok ('%' :: tail)
        else if c2 = '(' then
          if (keyRefName rest2).length = 0 then .error .interpolationSyntaxError
          else
            match rest2.drop (keyRefName rest2).length with
            | _ :: d2 :: rest3 =>
              if d2 = 's' then
                match alLookup vars (pyLower (String.mk (keyRefName rest2))) with
                | none => .error .interpolationMissingOptionError
                | some v =>
                  match (if v.data.contains '%' then deeper v.data
                         else .ok v.data) with
                  | .error e => .error e
                  | .ok ex =>
                    match interpScan vars deeper gas rest3 with
                    | .error e => .error e
                    | .ok tail => .ok (ex ++ tail)
              else .error .interpolationSyntaxError
            | _ => .error .interpolationSyntaxError
        else .error .interpolationSyntaxError
    else
      match interpScan vars deeper gas rest with
      | .error e => .error e
      | .ok tail => .ok (c :: tail)

/-- `BasicInterpolation._interpolate_some` with its nesting budget: CPython
raises `InterpolationDepthError` when the depth exceeds
`MAX_INTERPOLATION_DEPTH = 10`; `dleft` counts the remaining depth. -/
def interpDeep (vars : PyDict) : Nat → List Char → Except PyError (List Char)
  | 0, _ => .error .interpolationDepthError
  | dleft + 1, value => interpScan vars (interpDeep vars dleft) value.length value

/-- `BasicInterpolation.before_get` on one raw value: interpolate against the
section view `vars`, starting at depth 1 of at most 10. -/
def interpValue (vars : PyDict) (value : String) : Except PyError String :=
  match interpDeep vars 10 value.data with
  | .error e => .error e
  | .ok l => .ok (String.mk l)

/-- `dict(config["client"])`: every option of the section view, each value
interpolated against that view, in view order. -/
def interpItems (vars : PyDict) : PyDict → Except PyError PyDict
  | [] => .ok []
  | kv :: rest =>
    match interpValue vars kv.2 with
    | .error e => .error e
    | .ok iv =>
      match interpItems vars rest with
      | .error e => .error e
      | .ok tail => .ok ((kv.1, iv) :: tail)

/-- The combined view of a section (`d = self._defaults.copy();
d.update(section)`): `DEFAULT` options first, shadowed and extended by the
section's own options.  Used both for iteration order and for interpolation
lookups. -/
def sectionView (defaults sect : PyDict) : PyDict := alUpdate defaults sect

/-- `dict(config["client"])` for a parse result. -/
def sectionItems (defaults sect : PyDict) : Except PyError PyDict :=
  interpItems (sectionView defaults sect) (sectionView defaults sect)

/-- Intermediate state of `RawConfigParser._read`: accumulated `DEFAULT`
options and regular sections (values as multi-line part lists), the current
section, the last option name (for continuation lines), the indentation of
the last section/option line, and whether a `ParsingError` is pending
(configparser records undelimited lines and raises only at the end of the
read). -/
structure ReadState where
  /-- Options of the special `DEFAULT` section. -/
  defaults : List (String × List String)
  /-- Regular sections in order. -/
  sections : List (String × List (String × List String))
  /-- Current section name (possibly `"DEFAULT"`). -/
  cursect : Option String
  /-- Last option name, lowercased (`None` right after a header). -/
  optname : Option String
  /-- Indentation of the last section/option line. -/
  indent : Nat
  /-- A `ParsingError` was recorded and will be raised at the end. -/
  pendingParseError : Bool

/-- Leading-whitespace count of a raw line
(`NONSPACECRE.search(line).start()`). -/
def lineIndent (line : String) : Nat := (line.data.takeWhile isPySpace).length

/-- Whether a line continues the previous option's value: inside a section,
after an option with a truthy (non-empty) name, and indented deeper than the
line that introduced it. -/
def contLine (st : ReadState) (line : String) : Bool :=
  st.cursect.isSome
    && (match st.optname with
        | some o => if o = "" then false else true
        | none => false)
    && decide (st.indent < lineIndent line)

/-- Append a continuation part (or a blank-line marker) to the current
option's value list. -/
def appendPart (st : ReadState) (part : String) : ReadState :=
  match st.cursect, st.optname with
  | some sname, some o =>
    if sname = "DEFAULT" then
      { st with defaults := st.defaults.map (fun p =>
          if p.1 = o then (p.1, p.2 ++ [part]) else p) }
    else
      { st with sections := st.sections.map (fun p =>
          if p.1 = sname then
            (p.1, p.2.map (fun q => if q.1 = o then (q.1, q.2 ++ [part]) else q))
          else p) }
  | _, _ => st

/-- A blank (non-comment) line inside a multi-line value appends an empty
part (`empty_lines_in_values = True`). -/
def blankLine (st : ReadState) : ReadState :=
  if st.cursect.isSome
      && (match st.optname with
          | some o => if o = "" then false else true
          | none => false) then
    appendPart st ""
  else st

/-- Strict-mode duplicate detection: whether option `k` was already added to
section `sname` during this read (for `DEFAULT` this spans all `[DEFAULT]`
blocks). -/
def hasOpt (st : ReadState) (sname k : String) : Bool :=
  if sname = "DEFAULT" then alHasKey st.defaults k
  else
    match alLookup st.sections sname with
    | some opts => alHasKey opts k
    | none => false

/-- Record option `k = v` (`cursect[optname] = [optval]`). -/
def addOption (st : ReadState) (sname k v : String) : ReadState :=
  if sname = "DEFAULT" then
    { st with defaults := st.defaults ++ [(k, [v])], optname := some k }
  else
    { st with
      sections := st.sections.map (fun p =>
          if p.1 = sname then (p.1, p.2 ++ [(k, [v])]) else p),
      optname := some k }

/-- `"\n".join(parts)`. -/
def joinNl : List String → String
  | [] => ""
  | [p] => p
  | p :: rest => p ++ "\n" ++ joinNl rest

/-- `"\n".join(parts).rstrip()` of `_join_multiline_values`. -/
def joinParts (parts : List String) : String := pyRstrip (joinNl parts)

/-- Finish the read: raise the pending `ParsingError` if any, else join all
multi-line values of the defaults and the sections. -/
def finishRead (st : ReadState) : Except PyError (PyDict × ConfigData) :=
  if st.pendingParseError then .error .parsingError
  else
    .ok (st.defaults.map (fun p => (p.1, joinParts p.2)),
         st.sections.map (fun p => (p.1, p.2.map (fun q => (q.1, joinParts q.2)))))

/-- The line loop of `configparser.RawConfigParser._read` (strict mode,
lowercased option keys, `[DEFAULT]` merging, continuation lines, deferred
`ParsingError`). -/
def readLines : List String → ReadState → Except PyError (PyDict × ConfigData)
  | [], st => finishRead st
  | line :: rest, st =>
    if commentLine (pyStrip line) then readLines rest st
    else if pyStrip line = "" then readLines rest (blankLine st)
    else if contLine st line then readLines rest (appendPart st (pyStrip line))
    else
      match parseHeader (pyStrip line) with
      | some name =>
        if name = "DEFAULT" then
          readLines rest { st with cursect := some "DEFAULT", optname := none,
                                   indent := lineIndent line }
        else if alHasKey st.sections name then .error .duplicateSectionError
        else
          readLines rest { st with sections := st.sections ++ [(name, [])],
                                   cursect := some name, optname := none,
                                   indent := lineIndent line }
      | none =>
        match st.cursect with
        | none => .error .missingSectionHeaderError
        | some sname =>
          match splitKV (pyStrip line) with
          | none =>
            readLines rest { st with pendingParseError := true,
                                     indent := lineIndent line }
          | some kv =>
            if hasOpt st sname (pyLower kv.1) then .error .duplicateOptionError
            else
              readLines rest
                (addOption { st with indent := lineIndent line } sname
                  (pyLower kv.1) kv.2)

/-- `configparser.ConfigParser.read_string`: the `DEFAULT` options and the
regular sections of the parsed document. -/
def read_string (raw : String) : Except PyError (PyDict × ConfigData) :=
  readLines (splitNl raw.data []) ⟨[], [], none, none, 0, false⟩

/-- The error message of `get_additional_client_configuration`
(`f"Malformed additional-client-configuration: {repr(raw)}"`). -/
def malformedMsg (raw : String) : String :=
  "Malformed additional-client-configuration: " ++ pyRepr raw

/-- `get_additional_client_configuration` (`charm.py:144`): `{}` for an
absent or falsy value; `ClientCharmError` when the parse fails for a missing
section header or when the parsed document has no `client` section (the
`KeyError` of `config["client"]`); any other parser error propagates, as do
the interpolation errors of `dict(config["client"])`. -/
def get_additional_client_configuration (juju_config : PyDict) :
    Except PyError PyDict :=
  match alLookup juju_config "additional-client-configuration" with
  | none => .ok []
  | some raw =>
    if raw = "" then .ok []
    else
      match read_string raw with
      | .error .missingSectionHeaderError =>
        .error (.clientCharmError (malformedMsg raw))
      | .error e => .error e
      | .ok ds =>
        match alLookup ds.2 "client" with
        | none => .error (.clientCharmError (malformedMsg raw))
        | some sect => sectionItems ds.1 sect

/-- The dict comprehension of `create_client_config` (`charm.py:191`): drop
charm-only keys and rewrite hyphens to underscores. -/
def renameConfig (juju_config : PyDict) : PyDict :=
  alUpdate []
    (juju_config.filterMap (fun kv =>
      if kv.1 ∈ CHARM_ONLY_CONFIGS then none
      else some (pyUnderscore kv.1, kv.2)))

/-- `create_client_config` up to (and including) the `computer_title`
default: rename, merge the additional configuration on top, and fill in the
default title when absent. -/
def preSslConfig (juju_config : PyDict) (default_computer_title : String) :
    Except PyError PyDict :=
  match get_additional_client_configuration juju_config with
  | .error e => .error e
  | .ok additional =>
    .ok (if alHasKey (alUpdate (renameConfig juju_config) additional)
            "computer_title"
         then alUpdate (renameConfig juju_config) additional
         else alUpdate (renameConfig juju_config) additional
           ++ [("computer_title", default_computer_title)])

/-- The walrus chain of `create_client_config` (`charm.py:202`): the key and
value certificate resolution will operate on, if any — `ssl_ca` when present
and truthy, else `ssl_public_key` when present and truthy. -/
def sslTarget (cc : PyDict) : Option (String × String) :=
  match alLookup cc "ssl_ca" with
  | some v =>
    if v ≠ "" then some ("ssl_ca", v)
    else
      match alLookup cc "ssl_public_key" with
      | some w => if w ≠ "" then some ("ssl_public_key", w) else none
      | none => none
  | none =>
    match alLookup cc "ssl_public_key" with
    | some w => if w ≠ "" then some ("ssl_public_key", w) else none
    | none => none

/-- Result of `create_client_config`: the client configuration, the
file-system state after certificate resolution, and the log of `(key, value)`
pairs that were passed to `parse_ssl_arg`. -/
structure CreateResult where
  /-- The returned client configuration dictionary. -/
  config : PyDict
  /-- File-system state after any certificate write. -/
  fs : FS
  /-- Which configuration entries underwent certificate resolution. -/
  resolved : List (String × String)
  deriving DecidableEq

/-- `create_client_config` (`charm.py:178`). -/
def create_client_config (fs : FS) (juju_config : PyDict)
    (default_computer_title : String) : Except PyError CreateResult :=
  match preSslConfig juju_config default_computer_title with
  | .error e => .error e
  | .ok cc =>
    match sslTarget cc with
    | none => .ok ⟨cc, fs, []⟩
    | some kv =>
      match parse_ssl_arg fs kv.2 with
      | .error e => .error e
      | .ok pfs => .ok ⟨alSet cc kv.1 pfs.1, pfs.2, [kv]⟩

/-- The per-item assignments of `config["client"].update(...)`: each
`ConfigParser.set` first runs `BasicInterpolation.before_set` on the value,
raising `ValueError` for invalid `%` usage, then stores it. -/
def applyUpdates (sect : PyDict) : PyDict → Except PyError PyDict
  | [] => .ok sect
  | kv :: rest =>
    if beforeSetOk kv.2 then applyUpdates (alSet sect kv.1 kv.2) rest
    else .error .valueError

/-- `merge_client_config` (`charm.py:127`).  The on-disk file is modelled as
its parsed key/value content (`none` when missing or unreadable, which
`config.read` silently tolerates; a file using `[DEFAULT]` is outside the
modelled fragment).  `config["client"]` raises `KeyError` when that section
is absent; otherwise the truthy-valued entries are assigned into the `client`
section (keys lowercased by `optionxform`, values checked by `before_set`)
and the whole structure is written back. -/
def merge_client_config (conf_file : Option ConfigData)
    (client_config : PyDict) : Except PyError ConfigData :=
  match alLookup (conf_file.getD []) "client" with
  | none => .error (.keyError "client")
  | some sect =>
    match applyUpdates sect (client_config.filterMap (fun kv =>
        if kv.2 ≠ "" then some (pyLower kv.1, kv.2) else none)) with
    | .error e => .error e
    | .ok sect2 => .ok (alSet (conf_file.getD []) "client" sect2)

/-- Observable actions of the configuration-changed cycle, in order of
occurrence. -/
inductive CharmAct where
  /-- `self.unit.status = MaintenanceStatus(msg)`. -/
  | statusMaintenance (msg : String)
  /-- `self.unit.status = ActiveStatus(msg)`. -/
  | statusActive (msg : String)
  /-- The merged configuration written to `CLIENT_CONF_FILE`. -/
  | mergeConfig (data : ConfigData)
  /-- A `process_helper` invocation with this argument vector. -/
  | runCmd (args : List String)
  deriving DecidableEq

/-- Number of `runCmd args` actions in a trace. -/
def countCmd : List CharmAct → List String → Nat
  | [], _ => 0
  | CharmAct.runCmd a :: t, args =>
    (if a = args then 1 else 0) + countCmd t args
  | _ :: t, args => countCmd t args

/-- Environment of one configuration-changed cycle: the charm configuration,
the host state, and the outcomes of external process invocations. -/
structure CharmEnv where
  /-- The Juju configuration (`self.config`). -/
  juju_config : PyDict
  /-- `socket.gethostname()`. -/
  hostname : String
  /-- File-system state. -/
  fs : FS
  /-- Parsed content of `CLIENT_CONF_FILE` (`none` when missing). -/
  conf_file : Option ConfigData
  /-- Result of `process_helper` for a given argument vector. -/
  exec : List String → Bool

/-- `LandscapeClientCharm.run_landscape_client` (`charm.py:290`) together
with `set_client_config`, `is_registered` and `send_registration`: set
maintenance status, re-apply the configuration (transform then merge), probe
the registration state, and either restart the client service or register
(surfacing a registration failure as `ClientCharmError`).  Returns the
outcome and the ordered trace of observable actions. -/
def run_landscape_client (env : CharmEnv) :
    Except PyError Unit × List CharmAct :=
  match create_client_config env.fs env.juju_config env.hostname with
  | .error e => (.error e, [CharmAct.statusMaintenance "Configuring landscape client.."])
  | .ok res =>
    match merge_client_config env.conf_file res.config with
    | .error e => (.error e, [CharmAct.statusMaintenance "Configuring landscape client.."])
    | .ok merged =>
      if env.exec [CLIENT_CONFIG_CMD, "--is-registered"] then
        (.ok (), [CharmAct.statusMaintenance "Configuring landscape client..",
                  CharmAct.mergeConfig merged,
                  CharmAct.runCmd [CLIENT_CONFIG_CMD, "--is-registered"],
                  CharmAct.runCmd ["systemctl", "restart", "landscape-client"],
                  CharmAct.statusActive "Client config updated!"])
      else
        if env.exec [CLIENT_CONFIG_CMD, "--silent"] then
          (.ok (), [CharmAct.statusMaintenance "Configuring landscape client..",
                    CharmAct.mergeConfig merged,
                    CharmAct.runCmd [CLIENT_CONFIG_CMD, "--is-registered"],
                    CharmAct.runCmd [CLIENT_CONFIG_CMD, "--silent"],
                    CharmAct.statusActive "Client registered!"])
        else
          (.error (.clientCharmError "Registration failed!"),
           [CharmAct.statusMaintenance "Configuring landscape client..",
            CharmAct.mergeConfig merged,
            CharmAct.runCmd [CLIENT_CONFIG_CMD, "--is-registered"],
            CharmAct.runCmd [CLIENT_CONFIG_CMD, "--silent"]])


/-! ### Association-list lemmas -/

theorem alHasKey_eq_isSome {α : Type} (l : List (String × α)) (k : String) :
    alHasKey l k = (alLookup l k).isSome := by
  induction l with
  | nil => rfl
  | cons p rest ih =>
    by_cases h : p.1 = k <;> simp [alHasKey, alLookup, h, ih]

theorem alLookup_append_some {α : Type} (l₁ l₂ : List (String × α))
    (k : String) (w : α) (h : alLookup l₁ k = some w) :
    alLookup (l₁ ++ l₂) k = some w := by
  induction l₁ with
  | nil => simp [alLookup] at h
  | cons p rest ih =>
    by_cases hp : p.1 = k <;> simp_all [alLookup, hp]

theorem alLookup_append_none {α : Type} (l₁ l₂ : List (String × α))
    (k : String) (h : alLookup l₁ k = none) :
    alLookup (l₁ ++ l₂) k = alLookup l₂ k := by
  induction l₁ with
  | nil => rfl
  | cons p rest ih =>
    by_cases hp : p.1 = k <;> simp_all [alLookup, hp]

theorem alLookup_mem {α : Type} (l : List (String × α)) (k : String) (w : α)
    (h : alLookup l k = some w) : (k, w) ∈ l := by
  induction l with
  | nil => simp [alLookup] at h
  | cons p rest ih =>
    obtain ⟨a, b⟩ := p
    by_cases hp : a = k
    · simp [alLookup, hp] at h
      subst hp
      subst h
      exact List.mem_cons_self _ _
    · simp [alLookup, hp] at h
      exact List.mem_cons_of_mem _ (ih h)

theorem alLookup_eq_none_iff {α : Type} (l : List (String × α)) (k : String) :
    alLookup l k = none ↔ k ∉ l.map Prod.fst := by
  induction l with
  | nil => simp [alLookup]
  | cons p rest ih =>
    by_cases hp : p.1 = k <;> simp [alLookup, hp, ih] <;> tauto

theorem alLookup_map_replace_self {α : Type} (l : List (String × α))
    (k : String) (v : α) :
    alLookup (l.map (fun p => if p.1 = k then (k, v) else p)) k
      = if alHasKey l k then some v else none := by
  induction l with
  | nil => rfl
  | cons p rest ih =>
    by_cases hp : p.1 = k <;> simp [alHasKey, alLookup, hp, ih]

theorem alLookup_map_replace_other {α : Type} (l : List (String × α))
    (k : String) (v : α) (k' : String) (h : k' ≠ k) :
    alLookup (l.map (fun p => if p.1 = k then (k, v) else p)) k'
      = alLookup l k' := by
  have hne : ¬ (k = k') := fun hc => h hc.symm
  induction l with
  | nil => rfl
  | cons p rest ih =>
    simp only [List.map_cons, alLookup]
    by_cases hp : p.1 = k
    · have hp' : ¬ (p.1 = k') := by rw [hp]; exact hne
      rw [if_pos hp, if_neg hne, if_neg hp', ih]
    · rw [if_neg hp]
      by_cases hq : p.1 = k'
      · rw [if_pos hq, if_pos hq]
      · rw [if_neg hq, if_neg hq, ih]

theorem alLookup_alSet {α : Type} (l : List (String × α)) (k : String)
    (v : α) (k' : String) :
    alLookup (alSet l k v) k' = if k' = k then some v else alLookup l k' := by
  unfold alSet
  by_cases hk : alHasKey l k <;> by_cases h' : k' = k
  · subst h'
    simp [hk, alLookup_map_replace_self]
  · simp [hk, h', alLookup_map_replace_other l k v k' h']
  · subst h'
    have hnone : alLookup l k' = none := by
      rw [alHasKey_eq_isSome] at hk
      cases h : alLookup l k' <;> simp [h] at hk ⊢
    simp [hk, alLookup_append_none _ _ _ hnone, alLookup]
  · simp only [hk, Bool.false_eq_true, if_false]
    cases h : alLookup l k' with
    | some w => rw [alLookup_append_some _ _ _ _ h, if_neg h']
    | none =>
      rw [alLookup_append_none _ _ _ h, if_neg h']
      have hks : ¬ (k = k') := fun hc => h' hc.symm
      simp [alLookup, hks, h]

theorem mem_keys_alSet {α : Type} (l : List (String × α)) (k : String)
    (v : α) (k' : String) (h : k' ∈ (alSet l k v).map Prod.fst) :
    k' ∈ l.map Prod.fst ∨ k' = k := by
  unfold alSet at h
  by_cases hk : alHasKey l k
  · simp only [hk, if_true] at h
    rw [List.map_map] at h
    rcases List.mem_map.mp h with ⟨p, hp, hval⟩
    by_cases hpk : p.1 = k
    · right
      simp [Function.comp, hpk] at hval
      exact hval.symm
    · left
      simp [Function.comp, hpk] at hval
      exact hval ▸ List.mem_map_of_mem Prod.fst hp
  · simp only [hk, Bool.false_eq_true, if_false, List.map_append] at h
    rcases List.mem_append.mp h with h1 | h1
    · exact Or.inl h1
    · simp at h1
      exact Or.inr h1

theorem alLookup_alUpdate_notmem {α : Type} (add base : List (String × α))
    (k : String) (h : ∀ kv, kv ∈ add → kv.1 ≠ k) :
    alLookup (alUpdate base add) k = alLookup base k := by
  induction add generalizing base with
  | nil => rfl
  | cons kv rest ih =>
    have hrest : ∀ p, p ∈ rest → p.1 ≠ k := fun p hp =>
      h p (List.mem_cons_of_mem _ hp)
    have hk : kv.1 ≠ k := h kv (List.mem_cons_self _ _)
    unfold alUpdate
    simp only [List.foldl_cons]
    rw [show List.foldl (fun acc p => alSet acc p.1 p.2)
          (alSet base kv.1 kv.2) rest
        = alUpdate (alSet base kv.1 kv.2) rest from rfl]
    rw [ih _ hrest, alLookup_alSet]
    have hks : ¬ (k = kv.1) := fun hc => hk hc.symm
    rw [if_neg hks]

theorem alLookup_alUpdate_mem {α : Type} (add base : List (String × α))
    (k : String) (w : α) (hnd : (add.map Prod.fst).Nodup)
    (hmem : (k, w) ∈ add) :
    alLookup (alUpdate base add) k = some w := by
  induction add generalizing base with
  | nil => simp at hmem
  | cons kv rest ih =>
    unfold alUpdate
    simp only [List.foldl_cons]
    rw [show List.foldl (fun acc p => alSet acc p.1 p.2)
          (alSet base kv.1 kv.2) rest
        = alUpdate (alSet base kv.1 kv.2) rest from rfl]
    rcases List.mem_cons.mp hmem with heq | hmem'
    · subst heq
      simp only [List.map_cons, List.nodup_cons] at hnd
      have : ∀ p, p ∈ rest → p.1 ≠ k := by
        intro p hp hc
        exact hnd.1 (hc ▸ List.mem_map_of_mem Prod.fst hp)
      rw [alLookup_alUpdate_notmem _ _ _ this, alLookup_alSet]
      simp
    · simp only [List.map_cons, List.nodup_cons] at hnd
      exact ih _ hnd.2 hmem'

theorem mem_keys_alUpdate {α : Type} (add base : List (String × α))
    (k : String) (h : k ∈ (alUpdate base add).map Prod.fst) :
    k ∈ base.map Prod.fst ∨ k ∈ add.map Prod.fst := by
  induction add generalizing base with
  | nil => exact Or.inl h
  | cons kv rest ih =>
    unfold alUpdate at h
    simp only [List.foldl_cons] at h
    rw [show List.foldl (fun acc p => alSet acc p.1 p.2)
          (alSet base kv.1 kv.2) rest
        = alUpdate (alSet base kv.1 kv.2) rest from rfl] at h
    rcases ih _ h with h1 | h1
    · rcases mem_keys_alSet _ _ _ _ h1 with h2 | h2
      · exact Or.inl h2
      · right
        simp [h2]
    · right
      simp [h1]

/-! ### Key-renaming lemmas -/

theorem undChar_ne_hyphen (c : Char) : undChar c ≠ '-' := by
  unfold undChar
  by_cases h : c = '-' <;> simp [h]

theorem hyphen_notmem_map_undChar (l : List Char) :
    '-' ∉ l.map undChar := by
  intro h
  rcases List.mem_map.mp h with ⟨c, _, hc⟩
  exact undChar_ne_hyphen c hc

theorem map_undChar_no_underscore (l₁ l₂ : List Char)
    (h : l₁.map undChar = l₂) (h2 : '_' ∉ l₂) : l₁ = l₂ := by
  induction l₁ generalizing l₂ with
  | nil => simpa using h.symm
  | cons c rest ih =>
    cases l₂ with
    | nil => simp at h
    | cons d rest₂ =>
      simp only [List.map_cons, List.cons.injEq] at h
      have hd : d ≠ '_' := by
        intro hc
        exact h2 (hc ▸ List.mem_cons_self _ _)
      have hc : c = d := by
        rcases h with ⟨h1, _⟩
        unfold undChar at h1
        by_cases hcc : c = '-'
        · rw [if_pos hcc] at h1
          exact absurd h1.symm hd
        · rwa [if_neg hcc] at h1
      have h2' : '_' ∉ rest₂ := fun hm => h2 (List.mem_cons_of_mem _ hm)
      rw [hc, ih rest₂ h.2 h2']

theorem pyUnderscore_mem_charm (k : String)
    (h : pyUnderscore k ∈ CHARM_ONLY_CONFIGS) : k ∈ CHARM_ONLY_CONFIGS := by
  have hdata : k.data.map undChar = (pyUnderscore k).data := rfl
  rcases List.mem_cons.mp h with h1 | h1
  · have hd : k.data = "ppa".data := by
      apply map_undChar_no_underscore
      · rw [hdata, h1]
      · decide
    have hk : k = "ppa" := by
      cases k
      cases hd
      rfl
    simp [CHARM_ONLY_CONFIGS, hk]
  rcases List.mem_cons.mp h1 with h2 | h2
  · exfalso
    apply hyphen_notmem_map_undChar k.data
    rw [hdata, h2]
    decide
  rcases List.mem_cons.mp h2 with h3 | h3
  · exfalso
    apply hyphen_notmem_map_undChar k.data
    rw [hdata, h3]
    decide
  · simp at h3

/-! ### Parser invariants -/

theorem readLines_nil (st : ReadState) : readLines [] st = finishRead st := rfl

theorem readLines_cons (line : String) (rest : List String) (st : ReadState) :
    readLines (line :: rest) st =
      if commentLine (pyStrip line) then readLines rest st
      else if pyStrip line = "" then readLines rest (blankLine st)
      else if contLine st line then readLines rest (appendPart st (pyStrip line))
      else
        match parseHeader (pyStrip line) with
        | some name =>
          if name = "DEFAULT" then
            readLines rest { st with cursect := some "DEFAULT", optname := none,
                                     indent := lineIndent line }
          else if alHasKey st.sections name then .error .duplicateSectionError
          else
            readLines rest { st with sections := st.sections ++ [(name, [])],
                                     cursect := some name, optname := none,
                                     indent := lineIndent line }
        | none =>
          match st.cursect with
          | none => .error .missingSectionHeaderError
          | some sname =>
            match splitKV (pyStrip line) with
            | none =>
              readLines rest { st with pendingParseError := true,
                                       indent := lineIndent line }
            | some kv =>
              if hasOpt st sname (pyLower kv.1) then .error .duplicateOptionError
              else
                readLines rest
                  (addOption { st with indent := lineIndent line } sname
                    (pyLower kv.1) kv.2) := rfl

theorem keys_map_preserve {α : Type} (l : List (String × α))
    (f : String × α → String × α) (hf : ∀ p, (f p).1 = p.1) :
    (l.map f).map Prod.fst = l.map Prod.fst := by
  induction l with
  | nil => rfl
  | cons p rest ih => simp [List.map_cons, hf, ih]

theorem keys_map_pair {α β : Type} (l : List (String × α))
    (g : String × α → β) :
    (l.map (fun p => (p.1, g p))).map Prod.fst = l.map Prod.fst := by
  induction l with
  | nil => rfl
  | cons p rest ih => simp [List.map_cons, ih]

theorem keys_append_nodup {α : Type} (l : List (String × α)) (k : String)
    (v : α) (hnd : (l.map Prod.fst).Nodup) (hk : alHasKey l k = false) :
    ((l ++ [(k, v)]).map Prod.fst).Nodup := by
  have hmem : k ∉ l.map Prod.fst := by
    have hnone : alLookup l k = none := by
      rw [alHasKey_eq_isSome] at hk
      cases hl : alLookup l k
      · rfl
      · rw [hl] at hk; cases hk
    exact (alLookup_eq_none_iff _ _).mp hnone
  rw [List.map_append]
  refine List.Nodup.append hnd (List.nodup_singleton _) ?_
  intro a ha hb
  have hak : a = k := by simpa using hb
  exact hmem (hak ▸ ha)

theorem alSet_keys_nodup {α : Type} (l : List (String × α)) (k : String)
    (v : α) (hnd : (l.map Prod.fst).Nodup) :
    ((alSet l k v).map Prod.fst).Nodup := by
  unfold alSet
  split
  · rw [keys_map_preserve _ _ (fun p => by
      show (if p.1 = k then (k, v) else p).1 = p.1
      split
      · next hp => exact hp.symm
      · rfl)]
    exact hnd
  · next hk =>
    apply keys_append_nodup _ _ _ hnd
    cases hb : alHasKey l k
    · rfl
    · exact absurd hb hk

theorem alUpdate_keys_nodup {α : Type} (add : List (String × α)) :
    ∀ base : List (String × α), (base.map Prod.fst).Nodup →
      ((alUpdate base add).map Prod.fst).Nodup := by
  induction add with
  | nil => intro base hnd; exact hnd
  | cons kv rest ih =>
    intro base hnd
    have hstep : alUpdate base (kv :: rest)
        = alUpdate (alSet base kv.1 kv.2) rest := rfl
    rw [hstep]
    exact ih _ (alSet_keys_nodup _ _ _ hnd)

theorem appendPart_defaults_keys (st : ReadState) (part : String) :
    (appendPart st part).defaults.map Prod.fst = st.defaults.map Prod.fst := by
  unfold appendPart
  split
  · split
    · exact keys_map_preserve _ _ (fun p => by
        show (if p.1 = _ then (p.1, p.2 ++ [part]) else p).1 = p.1
        split <;> rfl)
    · rfl
  · rfl

theorem blankLine_defaults_keys (st : ReadState) :
    (blankLine st).defaults.map Prod.fst = st.defaults.map Prod.fst := by
  unfold blankLine
  split
  · rw [appendPart_defaults_keys]
  · rfl

theorem readLines_defaults_nodup :
    ∀ (lines : List String) (st : ReadState) (ds : PyDict × ConfigData),
      (st.defaults.map Prod.fst).Nodup → readLines lines st = .ok ds →
      (ds.1.map Prod.fst).Nodup := by
  intro lines
  induction lines with
  | nil =>
    intro st ds hnd h
    rw [readLines_nil] at h
    unfold finishRead at h
    split at h
    · cases h
    · rw [← Except.ok.inj h]
      show ((st.defaults.map (fun p => (p.1, joinParts p.2))).map Prod.fst).Nodup
      rw [keys_map_pair _ (fun p => joinParts p.2)]
      exact hnd
  | cons line rest ih =>
    intro st ds hnd h
    rw [readLines_cons] at h
    split at h
    · exact ih _ _ hnd h
    · split at h
      · apply ih _ _ _ h
        rw [blankLine_defaults_keys]
        exact hnd
      · split at h
        · apply ih _ _ _ h
          rw [appendPart_defaults_keys]
          exact hnd
        · split at h
          · split at h
            · refine ih _ _ ?_ h
              exact hnd
            · split at h
              · cases h
              · refine ih _ _ ?_ h
                exact hnd
          · split at h
            · cases h
            · next sname hsn =>
              split at h
              · refine ih _ _ ?_ h
                exact hnd
              · next kv hkv =>
                split at h
                · cases h
                · next hno =>
                  apply ih _ _ _ h
                  unfold addOption
                  split
                  · next hd =>
                    show ((st.defaults
                        ++ [(pyLower kv.1, [kv.2])]).map Prod.fst).Nodup
                    apply keys_append_nodup _ _ _ hnd
                    have hf : hasOpt st sname (pyLower kv.1) = false := by
                      cases hb : hasOpt st sname (pyLower kv.1)
                      · rfl
                      · exact absurd hb hno
                    unfold hasOpt at hf
                    rw [if_pos hd] at hf
                    exact hf
                  · exact hnd

theorem read_string_defaults_nodup (raw : String) (ds : PyDict × ConfigData)
    (h : read_string raw = .ok ds) : (ds.1.map Prod.fst).Nodup := by
  refine readLines_defaults_nodup _ _ _ ?_ h
  exact List.nodup_nil

/-! ### Interpolation invariants -/

theorem interpItems_nil (vars : PyDict) : interpItems vars [] = .ok [] := rfl

theorem interpItems_cons (vars : PyDict) (kv : String × String) (rest : PyDict) :
    interpItems vars (kv :: rest) =
      (match interpValue vars kv.2 with
      | .error e => .error e
      | .ok iv =>
        match interpItems vars rest with
        | .error e => .error e
        | .ok tail => .ok ((kv.1, iv) :: tail)) := rfl

theorem interpItems_keys (vars : PyDict) :
    ∀ (d out : PyDict), interpItems vars d = .ok out →
      out.map Prod.fst = d.map Prod.fst := by
  intro d
  induction d with
  | nil =>
    intro out h
    rw [interpItems_nil] at h
    rw [← Except.ok.inj h]
  | cons kv rest ih =>
    intro out h
    rw [interpItems_cons] at h
    split at h
    · cases h
    · split at h
      · cases h
      · next tail heq =>
        rw [← Except.ok.inj h]
        simp [List.map_cons, ih _ heq]

theorem sectionItems_keys_nodup (defaults sect : PyDict) (out : PyDict)
    (hnd : (defaults.map Prod.fst).Nodup)
    (h : sectionItems defaults sect = .ok out) :
    (out.map Prod.fst).Nodup := by
  rw [interpItems_keys _ _ _ h]
  exact alUpdate_keys_nodup _ _ hnd

theorem gacc_nodup (cfg : PyDict) (add : PyDict)
    (h : get_additional_client_configuration cfg = .ok add) :
    (add.map Prod.fst).Nodup := by
  unfold get_additional_client_configuration at h
  split at h
  · cases h
    exact List.nodup_nil
  · split at h
    · cases h
      exact List.nodup_nil
    · split at h
      · cases h
      · cases h
      · next ds hrs =>
        split at h
        · cases h
        · exact sectionItems_keys_nodup _ _ _
            (read_string_defaults_nodup _ _ hrs) h

theorem applyUpdates_nil (sect : PyDict) : applyUpdates sect [] = .ok sect := rfl

theorem applyUpdates_cons (sect : PyDict) (kv : String × String)
    (rest : PyDict) :
    applyUpdates sect (kv :: rest) =
      if beforeSetOk kv.2 then applyUpdates (alSet sect kv.1 kv.2) rest
      else .error .valueError := rfl

theorem applyUpdates_all_ok (ups : PyDict) :
    ∀ sect : PyDict, (∀ kv ∈ ups, beforeSetOk kv.2 = true) →
      applyUpdates sect ups = .ok (alUpdate sect ups) := by
  induction ups with
  | nil => intro sect _; rfl
  | cons kv rest ih =>
    intro sect hall
    rw [applyUpdates_cons, if_pos (hall kv (List.mem_cons_self kv rest))]
    have hstep : alUpdate sect (kv :: rest)
        = alUpdate (alSet sect kv.1 kv.2) rest := rfl
    rw [hstep]
    exact ih _ (fun x hx => hall x (List.mem_cons_of_mem kv hx))

theorem applyUpdates_bad (ups : PyDict) :
    ∀ sect : PyDict, (∃ kv ∈ ups, beforeSetOk kv.2 = false) →
      applyUpdates sect ups = .error .valueError := by
  induction ups with
  | nil =>
    intro sect hex
    rcases hex with ⟨kv, hm, _⟩
    cases hm
  | cons kv rest ih =>
    intro sect hex
    rw [applyUpdates_cons]
    by_cases hb : beforeSetOk kv.2 = true
    · rw [if_pos hb]
      rcases hex with ⟨x, hm, hx⟩
      rcases List.mem_cons.mp hm with rfl | hm2
      · rw [hb] at hx; cases hx
      · exact ih _ ⟨x, hm2, hx⟩
    · rw [if_neg hb]

theorem map_replace_id {α : Type} (l : List (String × α)) (k : String) (v : α)
    (h : ∀ p, p ∈ l → p.1 ≠ k) :
    l.map (fun p => if p.1 = k then (k, v) else p) = l := by
  induction l with
  | nil => rfl
  | cons p rest ih =>
    have hp : p.1 ≠ k := h p (List.mem_cons_self _ _)
    simp only [List.map_cons, if_neg hp, List.cons.injEq, true_and]
    exact ih (fun q hq => h q (List.mem_cons_of_mem _ hq))

theorem alSet_self {α : Type} (l : List (String × α)) (k : String) (v : α)
    (hl : alLookup l k = some v) (hnd : (l.map Prod.fst).Nodup) :
    alSet l k v = l := by
  unfold alSet
  have hk : alHasKey l k = true := by
    rw [alHasKey_eq_isSome, hl]
    rfl
  rw [if_pos hk]
  induction l with
  | nil => rfl
  | cons p rest ih =>
    simp only [List.map_cons, List.nodup_cons] at hnd
    by_cases hp : p.1 = k
    · have hpv : p.2 = v := by
        simpa [alLookup, hp] using hl
      have hrest : ∀ q, q ∈ rest → q.1 ≠ k := by
        intro q hq hc
        apply hnd.1
        rw [hp, ← hc]
        exact List.mem_map_of_mem Prod.fst hq
      simp only [List.map_cons, if_pos hp, List.cons.injEq]
      constructor
      · rw [← hp, ← hpv]
      · exact map_replace_id rest k v hrest
    · have hl' : alLookup rest k = some v := by
        simpa [alLookup, hp] using hl
      simp only [List.map_cons, if_neg hp, List.cons.injEq, true_and]
      exact ih hl' hnd.2 (by rw [alHasKey_eq_isSome, hl']; rfl)

/-- The filtered truthy updates built by `merge_client_config`. -/
def truthyUpdates (client_config : PyDict) : PyDict :=
  client_config.filterMap (fun kv =>
    if kv.2 ≠ "" then some (pyLower kv.1, kv.2) else none)

theorem truthyUpdates_keys_sublist (nv : PyDict) :
    ((truthyUpdates nv).map Prod.fst).Sublist
      (nv.map (fun kv => pyLower kv.1)) := by
  induction nv with
  | nil => simp [truthyUpdates]
  | cons kv rest ih =>
    unfold truthyUpdates at ih ⊢
    by_cases h : kv.2 = ""
    · simp only [List.filterMap_cons, h, ne_eq, not_true_eq_false, if_false,
        List.map_cons]
      exact ih.cons _
    · simp only [List.filterMap_cons, ne_eq, h, not_false_eq_true, if_true,
        List.map_cons]
      exact ih.cons₂ _

/-! ### Claim C2 -/

/-- C2: `process_helper` returns false when the process could not be spawned,
when the exit code is non-zero, or when the captured combined output contains
the case-sensitive substring "Failure"; it returns true exactly when the
process completed with exit code 0 and the output has no such substring. -/
theorem c2_process_helper_success (outcome : ProcOutcome) (hide_errors : Bool) :
    process_helper outcome hide_errors = true ↔
      ∃ out, outcome = ProcOutcome.completed 0 out
        ∧ ¬ ("Failure".data <:+: out.data) := by
  cases outcome with
  | spawnFailure => simp [process_helper]
  | completed rc out =>
    by_cases hrc : rc = 0 <;>
      by_cases hf : "Failure".data <:+: out.data <;>
        simp [process_helper, containsSubstr, hrc, hf]

/-! ### Claim C10 -/

/-- C10: for certificate material that is a path to an existing file,
`parse_ssl_arg` returns that value unchanged and leaves the file system (in
particular the fixed certificate location and its write log) untouched; no
base64 decoding is attempted. -/
theorem c10_parse_ssl_existing_file (fs : FS) (value : String)
    (h : fs.isfile value = true) :
    parse_ssl_arg fs value = .ok (value, fs) := by
  unfold parse_ssl_arg
  rw [if_pos h]

/-- C10 witness: a concrete existing file path is returned as-is with the
file system unchanged. -/
theorem c10_parse_ssl_existing_file_witness :
    parse_ssl_arg ⟨["/etc/ssl/certs/my.crt"], true, []⟩ "/etc/ssl/certs/my.crt"
      = .ok ("/etc/ssl/certs/my.crt", ⟨["/etc/ssl/certs/my.crt"], true, []⟩) :=
  c10_parse_ssl_existing_file _ _ (by decide)

/-! ### Claim C1 -/

/-- C1 (amended): when no file exists at the configuration path (or it is
unreadable), `config.read` silently yields an empty structure, but
`merge_client_config` then fails with `KeyError("client")` at the
`config["client"]` lookup — for every `new_values` mapping — and persists
nothing; it does not succeed as the original claim states. -/
theorem c1_merge_missing_file_keyerror (new_values : PyDict) :
    merge_client_config none new_values = .error (.keyError "client") := rfl

/-- C1 counterexample: with no file present and the mapping
`{"account_name": "onward"}`, `merge_client_config` raises `KeyError` instead
of starting from an empty structure and persisting the merged result. -/
theorem c1_counterexample :
    merge_client_config none [("account_name", "onward")]
      = .error (.keyError "client")
    ∧ isClientCharmError
        (merge_client_config none [("account_name", "onward")]) = false := by
  constructor <;> rfl

/-! ### Claim C8 -/

/-- C8 (amended): for every existing on-disk configuration that has a
`client` section: merging a mapping whose values are all falsy leaves the
persisted key/value content unchanged; when every truthy value passes the
`before_set` interpolation check of `ConfigParser.set`, the truthy values
overwrite exactly the corresponding (lowercased) keys inside the `client`
section while every other section and every untouched `client` key keeps its
prior value; a truthy value with invalid `%` usage instead raises
`ValueError` from `before_set`.  (When the existing configuration has no
`client` section the merge instead fails with `KeyError`, see the
counterexample.) -/
theorem c8_merge_frame (cd : ConfigData) (sect : PyDict) (nv : PyDict)
    (hnd : (cd.map Prod.fst).Nodup)
    (hsect : alLookup cd "client" = some sect) :
    ((∀ kv, kv ∈ nv → kv.2 = "") →
      merge_client_config (some cd) nv = .ok cd) ∧
    ((∀ kv, kv ∈ nv → kv.2 ≠ "" → beforeSetOk kv.2 = true) →
      ∃ sect', merge_client_config (some cd) nv = .ok (alSet cd "client" sect') ∧
      (∀ s, s ≠ "client" → alLookup (alSet cd "client" sect') s = alLookup cd s) ∧
      (∀ k, (∀ kv, kv ∈ nv → pyLower kv.1 = k → kv.2 = "") →
        alLookup sect' k = alLookup sect k) ∧
      ((nv.map (fun kv => pyLower kv.1)).Nodup →
        ∀ kv, kv ∈ nv → kv.2 ≠ "" →
          alLookup sect' (pyLower kv.1) = some kv.2)) ∧
    ((∃ kv ∈ nv, kv.2 ≠ "" ∧ beforeSetOk kv.2 = false) →
      merge_client_config (some cd) nv = .error .valueError) := by
  have hm0 : merge_client_config (some cd) nv
      = (match applyUpdates sect (truthyUpdates nv) with
         | .error e => .error e
         | .ok sect2 => .ok (alSet cd "client" sect2)) := by
    unfold merge_client_config truthyUpdates
    simp only [Option.getD_some, hsect]
  refine ⟨?_, ?_, ?_⟩
  · intro hfalsy
    have hupd : truthyUpdates nv = [] := by
      unfold truthyUpdates
      rw [List.filterMap_eq_nil]
      intro kv hkv
      simp [hfalsy kv hkv]
    rw [hm0, hupd, applyUpdates_nil]
    show Except.ok (alSet cd "client" sect) = Except.ok cd
    rw [alSet_self cd "client" sect hsect hnd]
  · intro hgood
    have hall : ∀ kv ∈ truthyUpdates nv, beforeSetOk kv.2 = true := by
      intro kv hkv
      unfold truthyUpdates at hkv
      rcases List.mem_filterMap.mp hkv with ⟨kv0, hkv0, hval⟩
      by_cases htr : kv0.2 = ""
      · simp [htr] at hval
      · simp only [ne_eq, htr, not_false_eq_true, if_true,
          Option.some.injEq] at hval
        rw [← hval]
        exact hgood kv0 hkv0 htr
    have hmerge : merge_client_config (some cd) nv
        = .ok (alSet cd "client" (alUpdate sect (truthyUpdates nv))) := by
      rw [hm0, applyUpdates_all_ok _ _ hall]
    refine ⟨alUpdate sect (truthyUpdates nv), hmerge, ?_, ?_, ?_⟩
    · intro s hs
      rw [alLookup_alSet]
      rw [if_neg hs]
    · intro k hk
      apply alLookup_alUpdate_notmem
      intro kv' hkv'
      unfold truthyUpdates at hkv'
      rcases List.mem_filterMap.mp hkv' with ⟨kv, hkv, hval⟩
      by_cases htr : kv.2 = ""
      · simp [htr] at hval
      · simp only [ne_eq, htr, not_false_eq_true, if_true,
          Option.some.injEq] at hval
        intro hc
        have : pyLower kv.1 = k := by rw [← hval] at hc; exact hc
        exact htr (hk kv hkv this)
    · intro hnv kv hkv htr
      apply alLookup_alUpdate_mem
      · exact (hnv.sublist (truthyUpdates_keys_sublist nv))
      · unfold truthyUpdates
        apply List.mem_filterMap.mpr
        exact ⟨kv, hkv, by simp [htr]⟩
  · intro hbad
    have hbad2 : ∃ kv ∈ truthyUpdates nv, beforeSetOk kv.2 = false := by
      rcases hbad with ⟨kv, hkv, htr, hb⟩
      refine ⟨(pyLower kv.1, kv.2), ?_, hb⟩
      unfold truthyUpdates
      apply List.mem_filterMap.mpr
      exact ⟨kv, hkv, by simp [htr]⟩
    rw [hm0, applyUpdates_bad _ _ hbad2]

/-- C8 witness: concrete instances of the falsy and the truthy part — merging
only falsy values changes nothing, and a truthy interpolation-clean merge
overwrites just the targeted key. -/
theorem c8_merge_frame_witness :
    merge_client_config (some [("client", [("account_name", "onward")]),
        ("other", [("a", "b")])]) [("x", "")]
      = .ok [("client", [("account_name", "onward")]), ("other", [("a", "b")])] :=
  (c8_merge_frame [("client", [("account_name", "onward")]), ("other", [("a", "b")])]
    [("account_name", "onward")] [("x", "")] (by decide) (by decide)).1
    (by decide)

/-- C8 counterexample: an existing on-disk configuration without a `client`
section — a truthy merge raises `KeyError` instead of overwriting; and with a
`client` section present, the truthy value `"100%"` fails the `before_set`
interpolation check and raises `ValueError`, overwriting nothing. -/
theorem c8_counterexample :
    merge_client_config (some [("other", [("a", "b")])]) [("x", "y")]
      = .error (.keyError "client")
    ∧ merge_client_config (some [("client", [("a", "b")])]) [("x", "100%")]
      = .error .valueError := by
  constructor <;> rfl

/-! ### Rename and ssl-target helper lemmas -/

theorem mem_keys_renameConfig (cfg : PyDict) (k : String)
    (h : k ∈ (renameConfig cfg).map Prod.fst) :
    ∃ k₀, k₀ ∉ CHARM_ONLY_CONFIGS ∧ k = pyUnderscore k₀ := by
  unfold renameConfig at h
  rcases mem_keys_alUpdate _ _ _ h with h1 | h1
  · simp at h1
  · rcases List.mem_map.mp h1 with ⟨kv', hkv', hfst⟩
    rcases List.mem_filterMap.mp hkv' with ⟨kv, hkv, hval⟩
    by_cases hm : kv.1 ∈ CHARM_ONLY_CONFIGS
    · simp [hm] at hval
    · simp only [hm, if_false, Option.some.injEq] at hval
      refine ⟨kv.1, hm, ?_⟩
      rw [← hfst, ← hval]

theorem sslTarget_key (cc : PyDict) (kv : String × String)
    (h : sslTarget cc = some kv) :
    kv.1 = "ssl_ca" ∨ kv.1 = "ssl_public_key" := by
  unfold sslTarget at h
  split at h
  · split at h
    · left
      cases h
      rfl
    · split at h
      · split at h
        · right
          cases h
          rfl
        · cases h
      · cases h
  · split at h
    · split at h
      · right
        cases h
        rfl
      · cases h
    · cases h

theorem sslTarget_of_ca_truthy (cc : PyDict) (v : String)
    (h : alLookup cc "ssl_ca" = some v) (hv : v ≠ "") :
    sslTarget cc = some ("ssl_ca", v) := by
  unfold sslTarget
  rw [h]
  simp [hv]

theorem sslTarget_pk_cases (cc : PyDict) (v : String)
    (h : sslTarget cc = some ("ssl_public_key", v)) :
    alLookup cc "ssl_ca" = none ∨ alLookup cc "ssl_ca" = some "" := by
  unfold sslTarget at h
  split at h
  · next v' hca =>
    split at h
    · exfalso
      have := (Prod.mk.injEq _ _ _ _).mp (Option.some.inj h)
      exact absurd this.1 (by decide)
    · next hv' =>
      right
      have : v' = "" := by
        by_contra hc
        exact hv' hc
      rw [hca, this]
  · next hca => exact Or.inl hca

/-! ### Claim C3 -/

/-- C3 (amended): a key of the exclusion set
`{"ppa", "disable-unattended-upgrades", "additional-client-configuration"}`
never enters the result of `create_client_config` through the key-renaming of
the raw configuration, the `computer_title` default, or certificate
resolution; when such a key does appear in the result, it was injected by the
parsed additional-client-configuration document (which passes arbitrary keys
through unchanged). -/
theorem c3_excluded_keys (fs : FS) (cfg : PyDict) (title : String)
    (res : CreateResult) (k : String)
    (h1 : create_client_config fs cfg title = .ok res)
    (h2 : k ∈ CHARM_ONLY_CONFIGS)
    (h3 : k ∈ res.config.map Prod.fst) :
    ∃ add, get_additional_client_configuration cfg = .ok add
      ∧ k ∈ add.map Prod.fst := by
  unfold create_client_config at h1
  split at h1
  · cases h1
  · next cc hpre =>
    have hkcc : k ∈ cc.map Prod.fst := by
      split at h1
      · cases h1
        exact h3
      · next kv hst =>
        split at h1
        · cases h1
        · next pfs hps =>
          cases h1
          rcases mem_keys_alSet _ _ _ _ h3 with hm | hm
          · exact hm
          · exfalso
            rcases sslTarget_key _ _ hst with hk1 | hk1 <;>
              rw [hm, hk1] at h2 <;> revert h2 <;> decide
    unfold preSslConfig at hpre
    split at hpre
    · cases hpre
    · next add hadd =>
      refine ⟨add, hadd, ?_⟩
      have hk' : k ∈ (alUpdate (renameConfig cfg) add).map Prod.fst := by
        split at hpre
        · cases hpre
          exact hkcc
        · cases hpre
          rcases List.mem_map.mp hkcc with ⟨p, hp, hfst⟩
          rcases List.mem_append.mp hp with hp1 | hp1
          · exact hfst ▸ List.mem_map_of_mem Prod.fst hp1
          · exfalso
            simp only [List.mem_singleton] at hp1
            rw [hp1] at hfst
            have hk2 : "computer_title" ∈ CHARM_ONLY_CONFIGS := by
              rw [← hfst] at h2
              exact h2
            revert hk2
            decide
      rcases mem_keys_alUpdate _ _ _ hk' with hm | hm
      · exfalso
        rcases mem_keys_renameConfig _ _ hm with ⟨k₀, hk₀, hkeq⟩
        exact hk₀ (pyUnderscore_mem_charm k₀ (hkeq ▸ h2))
      · exact hm

/-- C3 witness: an additional-client-configuration document that sets `ppa`
inside its `client` section makes the excluded key reach the result via the
additional layer. -/
theorem c3_excluded_keys_witness :
    ∃ add, get_additional_client_configuration
        [("additional-client-configuration", "[client]\nppa = y")] = .ok add
      ∧ "ppa" ∈ add.map Prod.fst :=
  c3_excluded_keys ⟨[], true, []⟩
    [("additional-client-configuration", "[client]\nppa = y")] "s"
    ⟨[("ppa", "y"), ("computer_title", "s")], ⟨[], true, []⟩, []⟩ "ppa"
    (by decide) (by decide) (by decide)

/-- C3 counterexample: with the raw configuration consisting only of
`additional-client-configuration = "[client]\nppa = x"`, the excluded key
`ppa` appears in the `ClientConfig` returned by `create_client_config`,
contradicting the claim for inputs whose additional document mentions an
excluded key. -/
theorem c3_counterexample :
    Except.map CreateResult.config (create_client_config ⟨[], true, []⟩
        [("additional-client-configuration", "[client]\nppa = x")] "t")
      = .ok [("ppa", "x"), ("computer_title", "t")]
    ∧ "ppa" ∈ CHARM_ONLY_CONFIGS := by
  constructor
  · rfl
  · decide

/-! ### Claim C6 -/

/-- C6 (amended): for every key present both in the renamed raw configuration
and in the parsed additional configuration, other than a certificate key
(`ssl_ca` / `ssl_public_key`, whose value may subsequently be rewritten by
certificate resolution), the value in `create_client_config`'s result is the
additional-configuration value — the additional layer wins the collision. -/
theorem c6_additional_wins (fs : FS) (cfg : PyDict) (title : String)
    (add : PyDict) (res : CreateResult) (k w : String)
    (h1 : get_additional_client_configuration cfg = .ok add)
    (h2 : alLookup add k = some w)
    (h3 : alHasKey (renameConfig cfg) k = true)
    (h4 : create_client_config fs cfg title = .ok res)
    (h5 : k ≠ "ssl_ca") (h6 : k ≠ "ssl_public_key") :
    alLookup res.config k = some w := by
  unfold create_client_config at h4
  split at h4
  · cases h4
  · next cc hpre =>
    unfold preSslConfig at hpre
    have hup : alLookup (alUpdate (renameConfig cfg) add) k = some w :=
      alLookup_alUpdate_mem add _ k w (gacc_nodup cfg add h1)
        (alLookup_mem add k w h2)
    have hcc : alLookup cc k = some w := by
      split at hpre
      · next heq =>
        rw [h1] at heq
        cases heq
      · next add' heq =>
        have hadd : add = add' := by
          rw [h1] at heq
          exact Except.ok.inj heq
        subst hadd
        have h0 := Except.ok.inj hpre
        split at h0
        · rw [← h0]
          exact hup
        · rw [← h0]
          exact alLookup_append_some _ _ _ _ hup
    split at h4
    · cases h4
      exact hcc
    · next kv hst =>
      split at h4
      · cases h4
      · next pfs hps =>
        cases h4
        show alLookup (alSet cc kv.1 pfs.1) k = some w
        rw [alLookup_alSet]
        have hkne : k ≠ kv.1 := by
          rcases sslTarget_key _ _ hst with hk1 | hk1 <;> rw [hk1]
          · exact h5
          · exact h6
        rw [if_neg hkne]
        exact hcc

/-- C6 witness: raw `ping-url = a` plus additional `ping_url = b` yields
`ping_url = b` in the result. -/
theorem c6_additional_wins_witness :
    alLookup (⟨[("ping_url", "b"), ("computer_title", "T")], ⟨[], true, []⟩,
        []⟩ : CreateResult).config "ping_url" = some "b" :=
  c6_additional_wins ⟨[], true, []⟩
    [("ping-url", "a"), ("additional-client-configuration",
      "[client]\nping_url = b")] "T" [("ping_url", "b")]
    ⟨[("ping_url", "b"), ("computer_title", "T")], ⟨[], true, []⟩, []⟩
    "ping_url" "b"
    (by decide) (by decide) (by decide) (by decide) (by decide) (by decide)

/-- C6 counterexample: raw `ssl-ca` names an existing file while the
additional document sets `ssl_ca` to base64 material.  The additional value
wins the collision, but it is then fed to certificate resolution, so the
value in the result is the fixed certificate path — not the
additional-configuration value `"QUJD"` the claim promises. -/
theorem c6_counterexample :
    Except.map (fun r => alLookup r.config "ssl_ca")
      (create_client_config ⟨["/crt"], true, []⟩
        [("ssl-ca", "/crt"),
         ("additional-client-configuration", "[client]\nssl_ca = QUJD")] "t")
      = .ok (some "/etc/ssl/certs/landscape_server_ca.crt")
    ∧ get_additional_client_configuration
        [("ssl-ca", "/crt"),
         ("additional-client-configuration", "[client]\nssl_ca = QUJD")]
      = .ok [("ssl_ca", "QUJD")] := by
  constructor
  · rfl
  · rfl

/-! ### Claim C7 -/

/-- C7 (amended): whenever `ssl_ca` is present with a truthy (non-empty)
value, exactly that value is certificate-resolved — `ssl_public_key` is never
also resolved in the same call; and `ssl_public_key` is resolved only when
`ssl_ca` is absent or present with a falsy (empty) value, not merely when the
key is absent. -/
theorem c7_ssl_priority (fs : FS) (cfg : PyDict) (title : String)
    (cc : PyDict) (res : CreateResult)
    (h1 : preSslConfig cfg title = .ok cc)
    (h2 : create_client_config fs cfg title = .ok res) :
    (∀ v, alLookup cc "ssl_ca" = some v → v ≠ "" →
      res.resolved = [("ssl_ca", v)]
        ∧ ∃ p fs', parse_ssl_arg fs v = .ok (p, fs')
            ∧ res.config = alSet cc "ssl_ca" p ∧ res.fs = fs')
    ∧ (∀ v, ("ssl_public_key", v) ∈ res.resolved →
        alLookup cc "ssl_ca" = none ∨ alLookup cc "ssl_ca" = some "") := by
  unfold create_client_config at h2
  split at h2
  · next heq =>
    rw [h1] at heq
    cases heq
  · next cc' heq =>
    have hcc : cc = cc' := by
      rw [h1] at heq
      exact Except.ok.inj heq
    subst hcc
    split at h2
    · next hst =>
      cases h2
      constructor
      · intro v hv hv'
        rw [sslTarget_of_ca_truthy cc v hv hv'] at hst
        cases hst
      · intro v hm
        simp at hm
    · next kv hst =>
      split at h2
      · cases h2
      · next pfs hps =>
        cases h2
        constructor
        · intro v hv hv'
          have hkv : kv = ("ssl_ca", v) := by
            have hca := sslTarget_of_ca_truthy cc v hv hv'
            rw [hst] at hca
            exact Option.some.inj hca
          subst hkv
          refine ⟨rfl, pfs.1, pfs.2, ?_, rfl, rfl⟩
          rw [← hps]
        · intro v hm
          simp only [List.mem_singleton] at hm
          exact sslTarget_pk_cases cc v (hm ▸ hst)

/-- C7 witness: with `ssl-ca` an existing file path, the call resolves exactly
the `ssl_ca` value and nothing else. -/
theorem c7_ssl_priority_witness :
    (([("ssl_ca", "/ca")] : List (String × String))
        = [("ssl_ca", "/ca")]
      ∧ ∃ p fs', parse_ssl_arg ⟨["/ca"], true, []⟩ "/ca" = .ok (p, fs')
          ∧ ([("ssl_ca", "/ca"), ("computer_title", "t")] : PyDict)
              = alSet [("ssl_ca", "/ca"), ("computer_title", "t")] "ssl_ca" p
          ∧ (⟨["/ca"], true, []⟩ : FS) = fs') :=
  (c7_ssl_priority ⟨["/ca"], true, []⟩ [("ssl-ca", "/ca")] "t"
      [("ssl_ca", "/ca"), ("computer_title", "t")]
      ⟨[("ssl_ca", "/ca"), ("computer_title", "t")], ⟨["/ca"], true, []⟩,
        [("ssl_ca", "/ca")]⟩
      (by decide) (by decide)).1 "/ca" (by decide) (by decide)

/-- C7 counterexample: the raw configuration has an `ssl_ca` key (present,
with empty value) together with `ssl-public-key` naming an existing file; the
call nevertheless resolves `ssl_public_key`, so "ssl_public_key is resolved
only when ssl_ca is not present" fails. -/
theorem c7_counterexample :
    Except.map (fun r => (alLookup r.config "ssl_ca", r.resolved))
      (create_client_config ⟨["/pk"], true, []⟩
        [("ssl-ca", ""), ("ssl-public-key", "/pk")] "t")
      = .ok (some "", [("ssl_public_key", "/pk")]) := rfl

/-! ### Claim C4 -/

/-- C9 (amended): in the configuration-changed cycle core
(`run_landscape_client`), whenever re-applying the configuration succeeds
(transformation then merge), the action trace is: maintenance status, then
the merged-configuration write, then the registration probe, then exactly one
of the two commands — the service-manager restart when the probe reports
registered, or the registration command (whose failure is surfaced) when it
reports unregistered.  In such a cycle the restart and registration commands
together occur exactly once, and the restart occurs exactly when the probe
succeeded; when the re-application fails instead, the cycle stops after the
maintenance status and issues neither command (see the counterexample), so
"exactly one command per trigger" is not universal. -/
theorem c9_config_changed_cycle (env : CharmEnv) (ccfg : PyDict)
    (merged : ConfigData)
    (h1 : Except.map CreateResult.config
        (create_client_config env.fs env.juju_config env.hostname)
      = .ok ccfg)
    (h2 : merge_client_config env.conf_file ccfg = .ok merged) :
    (∃ tail, (run_landscape_client env).2
      = CharmAct.statusMaintenance "Configuring landscape client.."
        :: CharmAct.mergeConfig merged
        :: CharmAct.runCmd [CLIENT_CONFIG_CMD, "--is-registered"]
        :: CharmAct.runCmd
            (if env.exec [CLIENT_CONFIG_CMD, "--is-registered"]
             then ["systemctl", "restart", "landscape-client"]
             else [CLIENT_CONFIG_CMD, "--silent"])
        :: tail) ∧
    countCmd (run_landscape_client env).2
        ["systemctl", "restart", "landscape-client"]
      + countCmd (run_landscape_client env).2 [CLIENT_CONFIG_CMD, "--silent"]
      = 1 ∧
    (env.exec [CLIENT_CONFIG_CMD, "--is-registered"] = true ↔
      countCmd (run_landscape_client env).2
        ["systemctl", "restart", "landscape-client"] = 1) := by
  cases hcreate : create_client_config env.fs env.juju_config env.hostname with
  | error e =>
    rw [hcreate] at h1
    exact Except.noConfusion h1
  | ok res =>
    rw [hcreate] at h1
    have hcc : res.config = ccfg := Except.ok.inj h1
    unfold run_landscape_client
    simp only [hcreate, hcc, h2]
    by_cases hp : env.exec [CLIENT_CONFIG_CMD, "--is-registered"] = true
    · simp only [hp, if_true]
      refine ⟨⟨[CharmAct.statusActive "Client config updated!"], rfl⟩, rfl, ?_⟩
      constructor
      · intro _
        rfl
      · intro _
        exact trivial
    · have hp' : env.exec [CLIENT_CONFIG_CMD, "--is-registered"] = false :=
        Bool.not_eq_true _ ▸ Bool.of_not_eq_true hp
      simp only [hp', Bool.false_eq_true, if_false]
      by_cases hq : env.exec [CLIENT_CONFIG_CMD, "--silent"] = true
      · simp only [hq, if_true]
        refine ⟨⟨[CharmAct.statusActive "Client registered!"], rfl⟩, rfl, ?_⟩
        constructor
        · intro hc
          exact hc.elim
        · intro hc
          exact Nat.noConfusion hc
      · have hq' : env.exec [CLIENT_CONFIG_CMD, "--silent"] = false :=
          Bool.not_eq_true _ ▸ Bool.of_not_eq_true hq
        simp only [hq', Bool.false_eq_true, if_false]
        refine ⟨⟨[], rfl⟩, rfl, ?_⟩
        constructor
        · intro hc
          exact hc.elim
        · intro hc
          exact Nat.noConfusion hc

/-- Environment of the C9 witness: empty charm configuration, an existing
`client.conf` with an empty `client` section, and a probe that reports
registered. -/
def c9WitnessEnv : CharmEnv :=
  ⟨[], "h", ⟨[], true, []⟩, some [("client", [])],
   fun args => args == [CLIENT_CONFIG_CMD, "--is-registered"]⟩

/-- C9 witness: a concrete registered cycle — config applied, probe run, then
exactly the restart command. -/
theorem c9_config_changed_cycle_witness :
    (∃ tail, (run_landscape_client c9WitnessEnv).2
      = CharmAct.statusMaintenance "Configuring landscape client.."
        :: CharmAct.mergeConfig [("client", [("computer_title", "h")])]
        :: CharmAct.runCmd [CLIENT_CONFIG_CMD, "--is-registered"]
        :: CharmAct.runCmd
            (if c9WitnessEnv.exec [CLIENT_CONFIG_CMD, "--is-registered"]
             then ["systemctl", "restart", "landscape-client"]
             else [CLIENT_CONFIG_CMD, "--silent"])
        :: tail) ∧
    countCmd (run_landscape_client c9WitnessEnv).2
        ["systemctl", "restart", "landscape-client"]
      + countCmd (run_landscape_client c9WitnessEnv).2
          [CLIENT_CONFIG_CMD, "--silent"]
      = 1 ∧
    (c9WitnessEnv.exec [CLIENT_CONFIG_CMD, "--is-registered"] = true ↔
      countCmd (run_landscape_client c9WitnessEnv).2
        ["systemctl", "restart", "landscape-client"] = 1) :=
  c9_config_changed_cycle c9WitnessEnv [("computer_title", "h")]
    [("client", [("computer_title", "h")])] (by decide) (by decide)

/-- C9 counterexample: with certificate material that is neither an existing
file nor base64-decodable, the configuration re-application fails, the cycle
stops at the maintenance status, and neither the service restart nor the
registration command is issued — refuting "every trigger issues exactly one
of the two commands". -/
theorem c9_counterexample :
    run_landscape_client ⟨[("ssl-ca", "abc")], "h", ⟨[], true, []⟩,
        some [("client", [])], fun _ => true⟩
      = (.error .binasciiError,
         [CharmAct.statusMaintenance "Configuring landscape client.."])
    ∧ countCmd (run_landscape_client ⟨[("ssl-ca", "abc")], "h", ⟨[], true, []⟩,
          some [("client", [])], fun _ => true⟩).2
        ["systemctl", "restart", "landscape-client"]
      + countCmd (run_landscape_client ⟨[("ssl-ca", "abc")], "h", ⟨[], true, []⟩,
          some [("client", [])], fun _ => true⟩).2
        [CLIENT_CONFIG_CMD, "--silent"]
      = 0 := by
  constructor <;> rfl
